import Mathlib

set_option autoImplicit false

/-!
Verification of the sourcify-grabber acquisition pipeline.

Shallow embedding of the core modules:
- utils/address.js  : EIP-55 checksumming (strings as lists of UTF-16 code units,
  the keccak digest abstracted as a function giving the hex-digit value at each index);
- http.js           : HttpClient — retry loop, retryability predicate, backoff delays
  (delays over the rationals, Math.random abstracted as a parameter), ETag cache;
- sourcify.js       : SourcefyClient — mirror/match-type scan, per-file source fetch;
- archive.js + cli.js : provenance records — staleness check, creation/update, orphaning;
- checksums.js      : per-directory checksum manifests and their verification.

JS strings in the address module are modelled as `List Nat` of code units; elsewhere
opaque payloads are Lean `String`s. Fallible code returns `Option`/`Except`. Logging,
filesystem layout and the axios internals are elided; every branch that affects
control flow or data flow is kept.
-/

/-! ## utils/address.js -/

/-- ASCII fragment of JS `String.prototype.toLowerCase`, per code unit. -/
def jsToLower (c : Nat) : Nat := if 65 ≤ c ∧ c ≤ 90 then c + 32 else c

/-- ASCII fragment of JS `String.prototype.toUpperCase`, per code unit. -/
def jsToUpper (c : Nat) : Nat := if 97 ≤ c ∧ c ≤ 122 then c - 32 else c

/-- Case-insensitive hex digit test, the character class of `/^[0-9a-f]{40}$/i`. -/
def isHexDigitCI (c : Nat) : Bool :=
  decide ((48 ≤ c ∧ c ≤ 57) ∨ (97 ≤ c ∧ c ≤ 102) ∨ (65 ≤ c ∧ c ≤ 70))

/-- JS `str.replace('0x', '')`: remove the first occurrence of the two-character
substring `0x` (code units 48, 120) anywhere in the string, not only a leading one. -/
def replaceFirst0x : List Nat → List Nat
  | [] => []
  | [c] => [c]
  | c₁ :: c₂ :: rest =>
    if c₁ = 48 ∧ c₂ = 120 then rest else c₁ :: replaceFirst0x (c₂ :: rest)

/-- The checksumming loop of `toChecksumAddress`: `hashAt i` is
`parseInt(hash[i], 16)`; a nibble value of at least 8 upper-cases the character. -/
def checksumGo (hashAt : Nat → Nat) : Nat → List Nat → List Nat
  | _, [] => []
  | i, c :: rest => (if 8 ≤ hashAt i then jsToUpper c else c) :: checksumGo hashAt (i + 1) rest

/-- Body of the loop over `cleanAddress` in `toChecksumAddress`. `hash` abstracts
the keccak256 hex digest: `hash clean i` is the value of the digest's i-th hex digit. -/
def checksumEncode (hash : List Nat → Nat → Nat) (clean : List Nat) : List Nat :=
  checksumGo (hash clean) 0 clean

/-- `toChecksumAddress(address)` from utils/address.js: lowercase, strip the first
`0x`, require exactly 40 hex digits, then checksum-case using the keccak digest of
the cleaned string. `none` models the thrown `Invalid address format` error. -/
def toChecksumAddress (hash : List Nat → Nat → Nat) (address : List Nat) : Option (List Nat) :=
  let clean := replaceFirst0x (address.map jsToLower)
  if clean.length = 40 ∧ clean.all isHexDigitCI then
    some (48 :: 120 :: checksumEncode hash clean)
  else
    none

/-- `isValidChecksumAddress(address)`: `address === toChecksumAddress(address)`,
with a thrown error caught and turned into `false`. -/
def isValidChecksumAddress (hash : List Nat → Nat → Nat) (address : List Nat) : Bool :=
  match toChecksumAddress hash address with
  | some out => address == out
  | none => false

/-- The claim's quantification domain: a syntactically valid 40-hex-digit Ethereum
address, with or without a `0x`/`0X` prefix, in any letter casing. -/
def isClaim40HexAddress (address : List Nat) : Bool :=
  (decide (address.length = 40) && address.all isHexDigitCI)
  || (decide (address.length = 42)
      && (address.take 2 == [48, 120] || address.take 2 == [48, 88])
      && (address.drop 2).all isHexDigitCI)

/-- A lowercase hex digit (the only code units in a cleaned address). -/
def IsLowerHex (c : Nat) : Prop := (48 ≤ c ∧ c ≤ 57) ∨ (97 ≤ c ∧ c ≤ 102)

/-- A trivial stand-in for the keccak digest, used to evaluate the embedding at
concrete inputs (acceptance of an input by `toChecksumAddress` never depends on it). -/
def zeroHash : List Nat → Nat → Nat := fun _ _ => 0

/-- The concrete input `"ff0x" ++ 38 * "0"`: not an address, yet accepted, because
`replace('0x','')` removes the interior occurrence of `0x`. -/
def notAnAddressInput : List Nat := 102 :: 102 :: 48 :: 120 :: List.replicate 38 48

/-! ## http.js — HttpClient -/

/-- The response headers the client reads: `etag`, `last-modified`, `content-type`,
`content-length` (cached on a 200) and `retry-after` (read on a 429, already
parsed to seconds as `parseInt` does for a numeric header). -/
structure RespHeaders where
  etag : Option String
  lastModified : Option String
  contentType : Option String
  contentLength : Option String
  retryAfter : Option Nat
deriving DecidableEq

/-- An axios response: status, headers, body. -/
structure HttpResponse where
  status : Nat
  headers : RespHeaders
  data : String
deriving DecidableEq

/-- An axios request error: `response` is `none` for a connection-level
(network/DNS/timeout) failure and carries the HTTP response otherwise. -/
structure ReqError where
  response : Option HttpResponse
deriving DecidableEq

/-- A cache file body: `{url, timestamp, headers, data}` (http.js `saveToCache`). -/
structure CacheEntry where
  url : String
  timestamp : Nat
  etag : Option String
  lastModified : Option String
  contentType : Option String
  contentLength : Option String
  data : String
deriving DecidableEq

/-- The cache store, keyed by request URL (the sha256 key derivation is elided:
it is injective on URLs up to hash collisions). -/
def Cache : Type := String → Option CacheEntry

/-- The empty cache directory. -/
def emptyCache : Cache := fun _ => none

/-- `DEFAULT_MAX_RETRIES` from http.js. -/
def DEFAULT_MAX_RETRIES : Nat := 3

/-- The 24-hour cache validity window, in milliseconds. -/
def CACHE_VALIDITY_MS : Nat := 86400000

/-- `loadFromCache`: a parse/read failure or an entry older than 24 hours is a miss.
JS computes `Date.now() - timestamp` which is only compared with `>`, so truncated
Nat subtraction agrees with it. -/
def loadFromCache (cache : Cache) (now : Nat) (url : String) : Option CacheEntry :=
  match cache url with
  | none => none
  | some c => if now - c.timestamp > CACHE_VALIDITY_MS then none else some c

/-- `saveToCache`: whole-entry overwrite keyed by the URL. -/
def saveToCache (cache : Cache) (now : Nat) (url : String) (resp : HttpResponse) : Cache :=
  fun u =>
    if u = url then
      some { url := url, timestamp := now, etag := resp.headers.etag,
             lastModified := resp.headers.lastModified, contentType := resp.headers.contentType,
             contentLength := resp.headers.contentLength, data := resp.data }
    else cache u

/-- `isRetryableError`: no response (network error), or a 5xx status, or 429. -/
def isRetryableError (e : ReqError) : Bool :=
  match e.response with
  | none => true
  | some r => decide (500 ≤ r.status ∨ r.status = 429)

/-- `calculateRetryDelay(attempt)` over the rationals; `rand` abstracts
`Math.random()` (a value in `[0, 1)`). -/
def calculateRetryDelay (retryDelay maxRetryDelay rand : ℚ) (attempt : Nat) : ℚ :=
  let exponentialDelay := retryDelay * 2 ^ attempt
  let jitter := rand * (1 / 10) * exponentialDelay
  min (exponentialDelay + jitter) maxRetryDelay

/-- `getRetryAfterDelay(response)`: a present `retry-after` header is converted to
milliseconds and capped; an absent header falls back to `calculateRetryDelay(0)`. -/
def getRetryAfterDelay (retryDelay maxRetryDelay rand : ℚ) (resp : HttpResponse) : ℚ :=
  match resp.headers.retryAfter with
  | some ra => min ((ra : ℚ) * 1000) maxRetryDelay
  | none => calculateRetryDelay retryDelay maxRetryDelay rand 0

/-- The delay selection in the retry loop (http.js lines 219-224): a 429 response
takes the server-supplied delay, everything else the exponential backoff. -/
def chooseRetryDelay (retryDelay maxRetryDelay rand : ℚ) (attempt : Nat) (e : ReqError) : ℚ :=
  match e.response with
  | some r =>
    if r.status = 429 then getRetryAfterDelay retryDelay maxRetryDelay rand r
    else calculateRetryDelay retryDelay maxRetryDelay rand attempt
  | none => calculateRetryDelay retryDelay maxRetryDelay rand attempt

/-- JS `method.toLowerCase() === 'get'` (ASCII), on code units. -/
def isGetMethod (method : String) : Bool :=
  method.data.map (fun c => jsToLower c.toNat) == [103, 101, 116]

/-- Request options used by the cache logic. -/
structure ReqOptions where
  ignoreCache : Bool := false
  ignoreEtag : Bool := false

/-- The success path of an attempt (http.js lines 193-206): a 304 with a live
cache entry returns the cached payload unchanged; a 200 GET is written to the
cache; everything else returns the response body as is. -/
def handleSuccess (isGet : Bool) (now : Nat) (url : String) (cache : Cache)
    (calls : Nat) (resp : HttpResponse) : Except ReqError String × Cache × Nat :=
  match (if resp.status = 304 then loadFromCache cache now url else none) with
  | some c => (.ok c.data, cache, calls + 1)
  | none =>
    if isGet && resp.status == 200 then
      (.ok resp.data, saveToCache cache now url resp, calls + 1)
    else
      (.ok resp.data, cache, calls + 1)

/-- The attempt loop of `HttpClient.request`. `net i h` is the outcome of the
i-th underlying network request of the run when the `If-None-Match` header sent
is `h`; `remaining` counts the retries still allowed (`maxRetries - attempt`),
`calls` the network requests already issued. Returns the surfaced result, the
cache after the request, and the total number of network requests issued.
Sleeping between attempts is elided (the chosen delays are `chooseRetryDelay`). -/
def requestLoop (net : Nat → Option String → Except ReqError HttpResponse)
    (inm : Option String) (isGet : Bool) (now : Nat) (url : String) (cache : Cache) :
    Nat → Nat → Except ReqError String × Cache × Nat
  | remaining, calls =>
    match net calls inm with
    | .ok resp => handleSuccess isGet now url cache calls resp
    | .error e =>
      match remaining with
      | 0 => (.error e, cache, calls + 1)
      | r + 1 =>
        if isRetryableError e then requestLoop net inm isGet now url cache r (calls + 1)
        else (.error e, cache, calls + 1)

/-- `HttpClient.request(method, url, options)`: consult the cache for a GET to decide
the conditional header, then run the attempt loop. A 304 returns the cached payload
unchanged; a 200 GET is written to the cache; errors follow the retry policy. -/
def request (maxRetries : Nat) (net : Nat → Option String → Except ReqError HttpResponse)
    (now : Nat) (method : String) (url : String) (opts : ReqOptions) (cache : Cache)
    (calls : Nat) : Except ReqError String × Cache × Nat :=
  let isGet := isGetMethod method
  let inm : Option String :=
    if isGet && !opts.ignoreCache then
      match loadFromCache cache now url with
      | some c => if c.etag.isSome && !opts.ignoreEtag then c.etag else none
      | none => none
    else none
  requestLoop net inm isGet now url cache maxRetries calls

/-- Two sequential GETs to the same URL (the cache-correctness scenario): the second
starts from the cache and the network-call counter left by the first. Returns both
results and the total number of network requests issued. -/
def twoSequentialGets (maxRetries : Nat)
    (net : Nat → Option String → Except ReqError HttpResponse)
    (url : String) (now₁ now₂ : Nat) (cache₀ : Cache) :
    Except ReqError String × Except ReqError String × Nat :=
  let r₁ := request maxRetries net now₁ "GET" url {} cache₀ 0
  let r₂ := request maxRetries net now₂ "GET" url {} r₁.2.1 r₁.2.2
  (r₁.1, r₂.1, r₂.2.2)

/-! ## sourcify.js — SourcefyClient -/

/-- The two Sourcify match qualities, in the strings of the code:
`full` (the spec's "exact") and `partial` (the spec's "approximate"). -/
inductive MatchType where
  | fullMatch : MatchType
  | partialM : MatchType
deriving DecidableEq

/-- The failure of `fetchMetadata`: the thrown invalid-address error, or the
final `Failed to fetch metadata ...` error carrying `lastError?.message`. -/
inductive FetchErr where
  | invalidAddress : FetchErr
  | exhausted : Option ReqError → FetchErr
deriving DecidableEq

/-- The ordered `(matchType, baseUrl)` pairs scanned by `fetchMetadata`:
the outer loop is `['full', 'partial']`, the inner loop the configured mirrors. -/
def matchPairs (baseUrls : List String) : List (MatchType × String) :=
  [MatchType.fullMatch, MatchType.partialM].flatMap fun mt => baseUrls.map fun u => (mt, u)

/-- The shared shape of the mirror loops in sourcify.js: try each element in order,
return the first success, remember every failure as `lastError` and continue (the
404 / non-404 distinction in the source only selects the log line; both branches
`continue`), and surface `lastError` when the list is exhausted. -/
def mirrorScan {α β : Type} (attempt : α → Except ReqError β) :
    List α → Option ReqError → Except (Option ReqError) β
  | [], lastErr => .error lastErr
  | x :: rest, _ =>
    match attempt x with
    | .ok v => .ok v
    | .error e => mirrorScan attempt rest (some e)

/-- `SourcefyClient.fetchMetadata(chainId, address)`: reject an address that fails
`isValidChecksumAddress`, then scan full-match before partial-match across the
configured mirrors. `resp mt u` is the outcome of `http.get` on the metadata URL
built for match type `mt` at mirror `u` (URL construction is deterministic in the
pair, so the oracle is indexed by the pair itself). On success the result carries
the metadata, the match type and the mirror it came from. -/
def fetchMetadata (hash : List Nat → Nat → Nat) (address : List Nat)
    (baseUrls : List String) (resp : MatchType → String → Except ReqError String) :
    Except FetchErr (String × MatchType × String) :=
  if isValidChecksumAddress hash address then
    match mirrorScan
        (fun p : MatchType × String =>
          match resp p.1 p.2 with
          | .ok m => .ok (m, p.1, p.2)
          | .error e => .error e)
        (matchPairs baseUrls) none with
    | .ok r => .ok r
    | .error lastErr => .error (.exhausted lastErr)
  else
    .error .invalidAddress

/-- `SourcefyClient.fetchSourceFile(chainId, address, filePath, matchType)`:
the same scan over the mirrors only; `respFile u` is `http.get` on the file URL
at mirror `u`. -/
def fetchSourceFile (baseUrls : List String)
    (respFile : String → Except ReqError String) : Except (Option ReqError) String :=
  mirrorScan respFile baseUrls none

/-- `SourcefyClient.fetchAllSources(chainId, address, metadata, matchType)`:
`sourcesKeys` is `Object.keys(metadata.sources)` (`none` when the metadata has no
`sources` member); each file is fetched by `fetchFile` and a failing file is simply
left out of the accumulated map. The JS fan-out writes independent keys of one
object, so the sequential fold computes the same map. -/
def fetchAllSources {ε : Type} (fetchFile : String → Except ε String)
    (sourcesKeys : Option (List String)) : List (String × String) :=
  match sourcesKeys with
  | none => []
  | some files =>
    files.foldl
      (fun acc f =>
        match fetchFile f with
        | .ok content => acc ++ [(f, content)]
        | .error _ => acc)
      []

/-! ## archive.js + cli.js — provenance -/

/-- `tools` member of a provenance record. -/
structure ProvTools where
  name : String
  version : String
deriving DecidableEq

/-- A provenance record as built by `ArchiveManager.createProvenance` and mutated
by `markOrphaned`. Timestamps are epoch milliseconds (the ISO-8601 strings of the
code compare chronologically exactly when their numeric instants do). `orphaned`
is `none` while the key is absent from the JSON document. -/
structure Provenance where
  firstSeenAt : Nat
  lastUpdatedAt : Nat
  tools : ProvTools
  sourcesUsed : List String
  fetchRunId : String
  commitHash : Option String
  operator : String
  orphaned : Option Bool
deriving DecidableEq

/-- The options object taken by `createProvenance`. -/
structure ProvOptions where
  firstSeenAt : Option Nat := none
  sourcesUsed : Option (List String) := none
  fetchRunId : Option String := none
  commitHash : Option String := none
  toolVersion : Option String := none
  operator : Option String := none

/-- `ArchiveManager.createProvenance(options)`: `now` is `new Date()` and
`generatedRunId` the value of `this.generateRunId()` (random, hence a parameter).
Each `options.x || default` falls back when the option is absent. -/
def createProvenance (now : Nat) (generatedRunId : String) (o : ProvOptions) : Provenance :=
  { firstSeenAt := o.firstSeenAt.getD now
    lastUpdatedAt := now
    tools := { name := "sourcify-grabber", version := o.toolVersion.getD "2.0.0" }
    sourcesUsed := o.sourcesUsed.getD []
    fetchRunId := o.fetchRunId.getD generatedRunId
    commitHash := o.commitHash
    operator := o.operator.getD "automated"
    orphaned := none }

/-- The provenance construction of the fetch command (cli.js lines 194-198 and
224-227): `sourcesUsed` is the tag of the source that answered and `firstSeenAt`
is `provenanceCheck.provenance?.firstSeenAt`. -/
def fetchCommandProvenance (now : Nat) (generatedRunId : String)
    (prior : Option Provenance) (sourceTag : String) : Provenance :=
  createProvenance now generatedRunId
    { firstSeenAt := prior.map (fun p => p.firstSeenAt), sourcesUsed := some [sourceTag] }

/-- JS `x || default` on an optional number: `0` is falsy. -/
def jsOrNat (o : Option Nat) (dflt : Nat) : Nat :=
  match o with
  | some v => if v = 0 then dflt else v
  | none => dflt

/-- The result object of `ArchiveManager.checkProvenance` (`recordExists` is the
JS member `exists`, a reserved word in Lean). -/
structure CheckResult where
  recordExists : Bool
  provenance : Option Provenance
  isStale : Bool
  shouldSkip : Bool
deriving DecidableEq

/-- `ArchiveManager.checkProvenance(chainName, address, options)`: `readResult`
is the parsed provenance file (`none` models the ENOENT branch; schema validation
of a well-typed record passes and other I/O errors rethrow outside this model).
`Date.now() - lastUpdated` is only compared with `>`, so truncated subtraction
agrees with the JS arithmetic. -/
def checkProvenance (readResult : Option Provenance) (now : Nat)
    (staleThreshold : Option Nat) (force : Bool) : CheckResult :=
  match readResult with
  | some prov =>
    let threshold := jsOrNat staleThreshold 86400000
    let isStale := decide (now - prov.lastUpdatedAt > threshold)
    { recordExists := true, provenance := some prov, isStale := isStale,
      shouldSkip := !isStale && !force }
  | none =>
    { recordExists := false, provenance := none, isStale := true, shouldSkip := false }

/-- `ArchiveManager.markOrphaned(chainName, address)`: re-read the record, set the
flag and refresh `lastUpdatedAt`, write it back; a read failure is caught and
nothing is written (`none` in, `none` out — never a deletion). -/
def markOrphaned (readResult : Option Provenance) (now : Nat) : Option Provenance :=
  match readResult with
  | some prov => some { prov with orphaned := some true, lastUpdatedAt := now }
  | none => none

/-! ## checksums.js -/

/-- One entry of `mismatchedFiles`: the file with its expected and actual hashes. -/
structure MismatchEntry where
  file : String
  expected : String
  actual : String
deriving DecidableEq

/-- The result object of `verifyChecksums`. -/
structure VerifyResult where
  valid : Bool
  missingFiles : List String
  extraFiles : List String
  mismatchedFiles : List MismatchEntry
deriving DecidableEq

/-- JS truthiness of an object-property read whose value is a string:
absent or the empty string is falsy. -/
def jsTruthyStr (o : Option String) : Bool :=
  match o with
  | some s => !(s == "")
  | none => false

/-- `generateChecksums(directoryPath)`: a directory is its flattened list of
(relative path, content) pairs, `h` the sha256 hex digest abstracted as a function
of the content. -/
def generateChecksums (h : String → String) (dir : List (String × String)) :
    List (String × String) :=
  dir.map fun f => (f.1, h f.2)

/-- The missing-files loop of `verifyChecksums`: an expected file whose current
hash reads falsy is appended to `missingFiles` and invalidates. -/
def missingStep (current : List (String × String)) (r : VerifyResult)
    (ef : String × String) : VerifyResult :=
  if jsTruthyStr (List.lookup ef.1 current) then r
  else { r with missingFiles := r.missingFiles ++ [ef.1], valid := false }

/-- The extra/mismatch loop of `verifyChecksums`: a current file whose expected
hash reads falsy is extra (a warning); a truthy expected hash differing from the
current one is appended to `mismatchedFiles` and invalidates. -/
def checkStep (expected : List (String × String)) (r : VerifyResult)
    (cf : String × String) : VerifyResult :=
  match List.lookup cf.1 expected with
  | none => { r with extraFiles := r.extraFiles ++ [cf.1] }
  | some v =>
    if v = "" then { r with extraFiles := r.extraFiles ++ [cf.1] }
    else if v ≠ cf.2 then
      { r with mismatchedFiles := r.mismatchedFiles ++ [⟨cf.1, v, cf.2⟩], valid := false }
    else r

/-- The mismatch decision of the second loop for one current file, as an optional
`mismatchedFiles` entry: a truthy expected hash differing from the current hash. -/
def mismatchHit (expected : List (String × String)) (cf : String × String) :
    Option MismatchEntry :=
  match List.lookup cf.1 expected with
  | none => none
  | some v => if v = "" then none else if v ≠ cf.2 then some ⟨cf.1, v, cf.2⟩ else none

/-- `verifyChecksums(directoryPath, expectedChecksums)`: recompute the current
checksums, then run the two loops over a result that starts valid and empty. -/
def verifyChecksums (h : String → String) (dir : List (String × String))
    (expected : List (String × String)) : VerifyResult :=
  let current := generateChecksums h dir
  let r₁ := expected.foldl (missingStep current)
    { valid := true, missingFiles := [], extraFiles := [], mismatchedFiles := [] }
  current.foldl (checkStep expected) r₁

/-! ## Concrete instances for witnesses and counterexamples -/

/-- The all-zero address `0x0000...0000`; checksummed under `zeroHash` it is its
own checksum form. -/
def addrW : List Nat := 48 :: 120 :: List.replicate 40 48

/-- Empty header set. -/
def noHdrsW : RespHeaders :=
  { etag := none, lastModified := none, contentType := none, contentLength := none,
    retryAfter := none }

/-- A connection-level failure (no HTTP response). -/
def netErrW : ReqError := { response := none }

/-- A network oracle that fails with a connection error on every attempt. -/
def netFailW : Nat → Option String → Except ReqError HttpResponse := fun _ _ => .error netErrW

/-- A 404 response error. -/
def err404W : ReqError := { response := some { status := 404, headers := noHdrsW, data := "" } }

/-- A 503 response error. -/
def err503W : ReqError := { response := some { status := 503, headers := noHdrsW, data := "" } }

/-- A 400 response error (not retryable). -/
def err400W : ReqError := { response := some { status := 400, headers := noHdrsW, data := "" } }

/-- A 429 response carrying `retry-after: 7`. -/
def resp429W : HttpResponse :=
  { status := 429, headers := { noHdrsW with retryAfter := some 7 }, data := "" }

/-- The error wrapping `resp429W`. -/
def err429W : ReqError := { response := some resp429W }

/-- Two configured mirrors. -/
def urlsW : List String := ["m1", "m2"]

/-- A sourcify oracle: full match 404s at the first mirror and 503s at the second,
the partial match succeeds at the first mirror. -/
def respW : MatchType → String → Except ReqError String :=
  fun mt u =>
    match mt, u with
    | MatchType.fullMatch, "m1" => .error err404W
    | MatchType.fullMatch, _ => .error err503W
    | MatchType.partialM, "m1" => .ok "meta"
    | MatchType.partialM, _ => .error err404W

/-- A sourcify oracle failing everywhere (for the exhaustion path). -/
def respAllFailW : MatchType → String → Except ReqError String :=
  fun mt u =>
    match mt, u with
    | MatchType.fullMatch, _ => .error err404W
    | MatchType.partialM, "m2" => .error err503W
    | MatchType.partialM, _ => .error err404W

/-- The per-pair error of `respAllFailW`, as a function. -/
def errOfW : MatchType × String → ReqError :=
  fun p =>
    match p.1, p.2 with
    | MatchType.fullMatch, _ => err404W
    | MatchType.partialM, "m2" => err503W
    | MatchType.partialM, _ => err404W

/-- A network failing with a retryable 503 on the first request and a
non-retryable 400 on every later one. -/
def netMixW : Nat → Option String → Except ReqError HttpResponse :=
  fun i _ => if i = 0 then .error err503W else .error err400W

/-- The per-attempt errors of `netMixW`. -/
def errMixW : Nat → ReqError := fun i => if i = 0 then err503W else err400W

/-- A prior provenance record whose sources came from the explorer. -/
def priorW : Provenance :=
  { firstSeenAt := 5, lastUpdatedAt := 10,
    tools := { name := "sourcify-grabber", version := "2.0.0" },
    sourcesUsed := ["explorer"], fetchRunId := "run-0", commitHash := none,
    operator := "automated", orphaned := none }

/-- The 200 response of the first GET in the cache scenario: payload `D`, ETag `E`. -/
def resp200W : HttpResponse :=
  { status := 200, headers := { noHdrsW with etag := some "E" }, data := "D" }

/-- The 304 response the server gives the conditional second GET. -/
def resp304W : HttpResponse := { status := 304, headers := noHdrsW, data := "" }

/-- The network for the cache scenario: first underlying request answers 200,
every later one 304. -/
def netCacheW : Nat → Option String → Except ReqError HttpResponse :=
  fun i _ => if i = 0 then .ok resp200W else .ok resp304W

/-- A concrete injective, never-empty hash for checksum witnesses. -/
def hashW : String → String := fun c => "#" ++ c

/-- A concrete two-file directory. -/
def dirW : List (String × String) := [("a.txt", "x"), ("b.txt", "y")]

/-- `dirW` with the content of `b.txt` mutated. -/
def dirMutW : List (String × String) := [("a.txt", "x"), ("b.txt", "z")]

/-! ## Theorems -/

/-- C3: the backoff delay before (0-indexed) retry `k` equals
`min(base * 2^k * (1 + j), cap)` for a jitter fraction `j ≤ 10%`; ignoring jitter
the delay is monotone in `k`; no computed delay exceeds the cap; and a 429 response
with a `retry-after` header overrides the exponential delay with that duration,
capped by the same cap. -/
theorem calculateRetryDelay_backoff_spec :
    (∀ (base cap rand : ℚ) (k : Nat), 0 ≤ rand → rand < 1 →
        ∃ j : ℚ, 0 ≤ j ∧ j ≤ 1 / 10 ∧
          calculateRetryDelay base cap rand k = min (base * 2 ^ k * (1 + j)) cap)
  ∧ (∀ (base cap : ℚ) (k : Nat), 0 ≤ base →
        calculateRetryDelay base cap 0 k ≤ calculateRetryDelay base cap 0 (k + 1))
  ∧ (∀ (base cap rand : ℚ) (k : Nat), calculateRetryDelay base cap rand k ≤ cap)
  ∧ (∀ (base cap rand : ℚ) (attempt : Nat) (e : ReqError) (r : HttpResponse) (ra : Nat),
        e.response = some r → r.status = 429 → r.headers.retryAfter = some ra →
        chooseRetryDelay base cap rand attempt e = min ((ra : ℚ) * 1000) cap) := by
  refine ⟨?_, ?_, ?_, ?_⟩
  · intro base cap rand k h0 h1
    refine ⟨rand * (1 / 10), by positivity, ?_, ?_⟩
    · nlinarith
    · unfold calculateRetryDelay
      ring_nf
  · intro base cap k hb
    unfold calculateRetryDelay
    simp only [zero_mul, mul_zero, add_zero]
    refine min_le_min ?_ le_rfl
    have h2 : (2 : ℚ) ^ k ≤ 2 ^ (k + 1) := by
      have : (1 : ℚ) ≤ 2 := by norm_num
      exact pow_le_pow_right₀ this (Nat.le_succ k)
    exact mul_le_mul_of_nonneg_left h2 hb
  · intro base cap rand k
    exact min_le_right _ _
  · intro base cap rand attempt e r ra hresp hstatus hra
    simp [chooseRetryDelay, hresp, hstatus, getRetryAfterDelay, hra]

/-- C3 witness: the theorem at concrete values — the cap bound at
`base = 1000, cap = 10000, rand = 1/2, k = 5` and the 429 override for `err429W`. -/
theorem calculateRetryDelay_backoff_spec_witness :
    calculateRetryDelay 1000 10000 (1 / 2) 5 ≤ 10000
  ∧ chooseRetryDelay 1000 10000 (1 / 2) 0 err429W = min ((7 : ℚ) * 1000) 10000 :=
  ⟨calculateRetryDelay_backoff_spec.2.2.1 1000 10000 (1 / 2) 5,
   calculateRetryDelay_backoff_spec.2.2.2 1000 10000 (1 / 2) 0 err429W resp429W 7 rfl rfl rfl⟩

/-- C4: the staleness check returns `shouldSkip = exists && !isStale && !force`;
for an existing record `isStale` holds iff the age of `lastUpdatedAt` exceeds the
threshold (default 24 hours); a missing record yields
`exists = false, isStale = true, shouldSkip = false`; and a record fetched at `T`
re-checked at `T + 1h` without force yields `shouldSkip = true`. -/
theorem checkProvenance_staleness_contract :
    (∀ (rr : Option Provenance) (now : Nat) (th : Option Nat) (force : Bool),
        (checkProvenance rr now th force).shouldSkip
          = ((checkProvenance rr now th force).recordExists
              && !(checkProvenance rr now th force).isStale && !force))
  ∧ (∀ (p : Provenance) (now : Nat) (th : Option Nat) (force : Bool),
        (checkProvenance (some p) now th force).isStale
          = decide (now - p.lastUpdatedAt > jsOrNat th 86400000))
  ∧ (∀ (now : Nat) (th : Option Nat) (force : Bool),
        checkProvenance none now th force
          = { recordExists := false, provenance := none, isStale := true,
              shouldSkip := false })
  ∧ (∀ (p : Provenance) (T : Nat), p.lastUpdatedAt = T →
        (checkProvenance (some p) (T + 3600000) none false).shouldSkip = true) := by
  refine ⟨?_, ?_, ?_, ?_⟩
  · intro rr now th force
    cases rr <;> simp [checkProvenance]
  · intro p now th force
    simp [checkProvenance]
  · intro now th force
    rfl
  · intro p T hT
    simp [checkProvenance, jsOrNat, hT, Nat.add_sub_cancel_left]

/-- C4 witness: the scenario conjunct at the concrete record `priorW`
(fetched at 10, re-checked at 10 + 1h). -/
theorem checkProvenance_staleness_contract_witness :
    (checkProvenance (some priorW) (10 + 3600000) none false).shouldSkip = true :=
  checkProvenance_staleness_contract.2.2.2 priorW 10 rfl

/-- C5 counterexample: re-recording a success does not union `sourcesUsed` — the
prior record used the explorer, the new fetch used sourcify, and the resulting
record has lost the explorer tag (a union would keep it). -/
theorem fetchCommandProvenance_not_union_cex :
    (fetchCommandProvenance 20 "r1" (some priorW) "sourcify").sourcesUsed = ["sourcify"]
  ∧ "explorer" ∈ priorW.sourcesUsed
  ∧ "explorer" ∉ (fetchCommandProvenance 20 "r1" (some priorW) "sourcify").sourcesUsed := by
  refine ⟨rfl, ?_, ?_⟩
  · simp [priorW]
  · simp [fetchCommandProvenance, createProvenance]

/-- C5 amended: recording a success for a contract with a prior record preserves
the original `firstSeenAt`, sets `lastUpdatedAt` to the current time and sets
`sourcesUsed` to exactly the sources of the current fetch (replacing, not
unioning, the prior set); on first success `firstSeenAt` is the current time. -/
theorem fetchCommandProvenance_record_success :
    (∀ (now : Nat) (rid : String) (prior : Provenance) (tag : String),
        (fetchCommandProvenance now rid (some prior) tag).firstSeenAt = prior.firstSeenAt
      ∧ (fetchCommandProvenance now rid (some prior) tag).lastUpdatedAt = now
      ∧ (fetchCommandProvenance now rid (some prior) tag).sourcesUsed = [tag])
  ∧ (∀ (now : Nat) (rid : String) (tag : String),
        (fetchCommandProvenance now rid none tag).firstSeenAt = now
      ∧ (fetchCommandProvenance now rid none tag).lastUpdatedAt = now
      ∧ (fetchCommandProvenance now rid none tag).sourcesUsed = [tag]) := by
  refine ⟨?_, ?_⟩
  · intro now rid prior tag
    exact ⟨rfl, rfl, rfl⟩
  · intro now rid tag
    exact ⟨rfl, rfl, rfl⟩

/-- C9: every provenance-mutating operation preserves
`firstSeenAt ≤ lastUpdatedAt` (under clock monotonicity: the stored timestamps do
not lie in the future), and `markOrphaned` only sets the flag and refreshes
`lastUpdatedAt`, keeping the record and all its history fields. -/
theorem provenance_invariant_preserved :
    (∀ (now : Nat) (rid : String) (o : ProvOptions),
        (∀ fs, o.firstSeenAt = some fs → fs ≤ now) →
        (createProvenance now rid o).firstSeenAt ≤ (createProvenance now rid o).lastUpdatedAt)
  ∧ (∀ (now : Nat) (rid : String) (prior : Provenance) (tag : String),
        prior.firstSeenAt ≤ now →
        (fetchCommandProvenance now rid (some prior) tag).firstSeenAt
          ≤ (fetchCommandProvenance now rid (some prior) tag).lastUpdatedAt)
  ∧ (∀ (p : Provenance) (now : Nat),
        markOrphaned (some p) now
          = some { p with orphaned := some true, lastUpdatedAt := now })
  ∧ (∀ (now : Nat), markOrphaned none now = none)
  ∧ (∀ (p : Provenance) (now : Nat), p.firstSeenAt ≤ now →
        ∀ p', markOrphaned (some p) now = some p' →
          p'.firstSeenAt ≤ p'.lastUpdatedAt ∧ p'.orphaned = some true
          ∧ p'.firstSeenAt = p.firstSeenAt ∧ p'.sourcesUsed = p.sourcesUsed
          ∧ p'.tools = p.tools ∧ p'.fetchRunId = p.fetchRunId
          ∧ p'.commitHash = p.commitHash ∧ p'.operator = p.operator) := by
  refine ⟨?_, ?_, ?_, ?_, ?_⟩
  · intro now rid o h
    cases ho : o.firstSeenAt with
    | none => simp [createProvenance, ho]
    | some fs => simpa [createProvenance, ho] using h fs ho
  · intro now rid prior tag h
    simpa [fetchCommandProvenance, createProvenance] using h
  · intro p now
    rfl
  · intro now
    rfl
  · intro p now h p' hp'
    have heq : p' = { p with orphaned := some true, lastUpdatedAt := now } := by
      simpa [markOrphaned] using hp'.symm
    subst heq
    exact ⟨h, rfl, rfl, rfl, rfl, rfl, rfl, rfl⟩

/-- C9 witness: the theorem at the concrete record `priorW` (first seen at 5,
orphaned at time 42). -/
theorem provenance_invariant_preserved_witness :
    ({ priorW with orphaned := some true, lastUpdatedAt := 42} : Provenance).firstSeenAt
        ≤ ({ priorW with orphaned := some true, lastUpdatedAt := 42} : Provenance).lastUpdatedAt
      ∧ ({ priorW with orphaned := some true, lastUpdatedAt := 42} : Provenance).orphaned = some true
      ∧ ({ priorW with orphaned := some true, lastUpdatedAt := 42} : Provenance).firstSeenAt = priorW.firstSeenAt
      ∧ ({ priorW with orphaned := some true, lastUpdatedAt := 42} : Provenance).sourcesUsed = priorW.sourcesUsed
      ∧ ({ priorW with orphaned := some true, lastUpdatedAt := 42} : Provenance).tools = priorW.tools
      ∧ ({ priorW with orphaned := some true, lastUpdatedAt := 42} : Provenance).fetchRunId = priorW.fetchRunId
      ∧ ({ priorW with orphaned := some true, lastUpdatedAt := 42} : Provenance).commitHash = priorW.commitHash
      ∧ ({ priorW with orphaned := some true, lastUpdatedAt := 42} : Provenance).operator = priorW.operator :=
  provenance_invariant_preserved.2.2.2.2 priorW 42 (by decide)
    { priorW with orphaned := some true, lastUpdatedAt := 42} rfl

/-- The accumulator of `fetchAllSources` collects exactly the successful files,
whatever it already holds. -/
theorem fetchAllSources_foldl_mem {ε : Type} (fetchFile : String → Except ε String)
    (f c : String) :
    ∀ (files : List String) (acc : List (String × String)),
      (f, c) ∈ files.foldl
          (fun acc g =>
            match fetchFile g with
            | .ok content => acc ++ [(g, content)]
            | .error _ => acc) acc
        ↔ (f, c) ∈ acc ∨ (f ∈ files ∧ fetchFile f = .ok c) := by
  intro files
  induction files with
  | nil => simp
  | cons g gs ih =>
    intro acc
    cases hfg : fetchFile g with
    | ok content =>
      have key : ((f, c) = (g, content)) ↔ (f = g ∧ fetchFile f = Except.ok c) := by
        constructor
        · intro h
          injection h with h1 h2
          subst h1
          subst h2
          exact ⟨rfl, hfg⟩
        · rintro ⟨h1, h2⟩
          subst h1
          rw [hfg] at h2
          injection h2 with h3
          rw [h3]
      simp only [List.foldl_cons, hfg, ih, List.mem_append, List.mem_singleton, key,
        List.mem_cons]
      tauto
    | error e =>
      have key : ¬(f = g ∧ fetchFile f = Except.ok c) := by
        rintro ⟨h1, h2⟩
        subst h1
        rw [hfg] at h2
        cases h2
      simp only [List.foldl_cons, hfg, ih, List.mem_cons]
      tauto

/-- C8: `fetchAllSources` never fails as a whole — it is a total function whose
result contains exactly the manifest files whose individual fetch succeeded, with
the fetched content; a failing file is omitted and the rest proceed. -/
theorem fetchAllSources_exactly_successes :
    ∀ {ε : Type} (fetchFile : String → Except ε String)
      (sourcesKeys : Option (List String)) (f c : String),
      (f, c) ∈ fetchAllSources fetchFile sourcesKeys
        ↔ ∃ files, sourcesKeys = some files ∧ f ∈ files ∧ fetchFile f = .ok c := by
  intro ε fetchFile sourcesKeys f c
  cases sourcesKeys with
  | none => simp [fetchAllSources]
  | some files =>
    rw [fetchAllSources, fetchAllSources_foldl_mem]
    simp

/-- A string with no `x` code unit is unchanged by `replace('0x','')`. -/
theorem replaceFirst0x_eq_self (l : List Nat) (h : ∀ c ∈ l, c ≠ 120) :
    replaceFirst0x l = l := by
  induction l with
  | nil => rfl
  | cons c₁ t ih =>
    cases t with
    | nil => rfl
    | cons c₂ rest =>
      have h₂ : c₂ ≠ 120 := h c₂ (by simp)
      have ht : ∀ c ∈ c₂ :: rest, c ≠ 120 := fun c hc => h c (List.mem_cons_of_mem _ hc)
      simp only [replaceFirst0x]
      rw [if_neg (by

        exact fun hand => h₂ hand.2)]
      rw [ih ht]

/-- `replace('0x','')` only removes code units. -/
theorem mem_replaceFirst0x (l : List Nat) (c : Nat) (h : c ∈ replaceFirst0x l) : c ∈ l := by
  induction l with
  | nil => simp [replaceFirst0x] at h
  | cons c₁ t ih =>
    cases t with
    | nil => simpa [replaceFirst0x] using h

    | cons c₂ rest =>
      rw [replaceFirst0x] at h
      split at h
      · exact List.mem_cons_of_mem _ (List.mem_cons_of_mem _ h)
      · rcases List.mem_cons.1 h with h₁ | h₂
        · exact List.mem_cons.2 (Or.inl h₁)
        · exact List.mem_cons_of_mem _ (ih h₂)

/-- Lowercasing a case-insensitive hex digit gives a lowercase hex digit. -/
theorem isLowerHex_jsToLower (c : Nat) (h : isHexDigitCI c = true) :
    IsLowerHex (jsToLower c) := by
  rw [isHexDigitCI, decide_eq_true_eq] at h
  rw [jsToLower, IsLowerHex]
  split <;> omega

/-- A lowercase hex digit is a case-insensitive hex digit. -/
theorem isHexDigitCI_of_isLowerHex (c : Nat) (h : IsLowerHex c) : isHexDigitCI c = true := by
  rw [IsLowerHex] at h
  rw [isHexDigitCI, decide_eq_true_eq]
  omega

/-- A lowercase hex digit is not the code unit of `x`. -/
theorem isLowerHex_ne_x (c : Nat) (h : IsLowerHex c) : c ≠ 120 := by
  rw [IsLowerHex] at h
  omega

/-- Lowercasing is the identity on lowercase hex digits. -/
theorem jsToLower_eq_self (c : Nat) (h : IsLowerHex c) : jsToLower c = c := by
  rw [IsLowerHex] at h
  rw [jsToLower]
  split <;> omega

/-- Lowercasing undoes uppercasing on lowercase hex digits. -/
theorem jsToLower_jsToUpper (c : Nat) (h : IsLowerHex c) : jsToLower (jsToUpper c) = c := by
  rw [IsLowerHex] at h
  rw [jsToUpper, jsToLower]
  split <;> split <;> omega

/-- Uppercasing a lowercase hex digit stays a case-insensitive hex digit. -/
theorem isHexDigitCI_jsToUpper (c : Nat) (h : IsLowerHex c) :
    isHexDigitCI (jsToUpper c) = true := by
  rw [IsLowerHex] at h
  rw [isHexDigitCI, jsToUpper, decide_eq_true_eq]
  split <;> omega

/-- `jsToLower` never produces an uppercase letter. -/
theorem jsToLower_not_upper (c : Nat) : ¬(65 ≤ jsToLower c ∧ jsToLower c ≤ 90) := by
  rw [jsToLower]
  split <;> omega

/-- A case-insensitive hex digit that is not an uppercase letter is lowercase hex. -/
theorem isLowerHex_of_hexCI_not_upper (c : Nat) (h₁ : isHexDigitCI c = true)
    (h₂ : ¬(65 ≤ c ∧ c ≤ 90)) : IsLowerHex c := by
  rw [isHexDigitCI, decide_eq_true_eq] at h₁
  rw [IsLowerHex]
  omega

/-- Lowercasing the checksummed form recovers the cleaned address. -/
theorem checksumGo_map_jsToLower (hashAt : Nat → Nat) :
    ∀ (l : List Nat) (i : Nat), (∀ c ∈ l, IsLowerHex c) →
      (checksumGo hashAt i l).map jsToLower = l := by
  intro l
  induction l with
  | nil => intro i _; rfl
  | cons c rest ih =>
    intro i h
    have hc : IsLowerHex c := h c (by simp)
    have hrest : ∀ d ∈ rest, IsLowerHex d := fun d hd => h d (List.mem_cons_of_mem _ hd)
    rw [checksumGo, List.map_cons, ih (i + 1) hrest]
    congr 1
    split
    · exact jsToLower_jsToUpper c hc
    · exact jsToLower_eq_self c hc

/-- Checksumming preserves length. -/
theorem checksumGo_length (hashAt : Nat → Nat) :
    ∀ (l : List Nat) (i : Nat), (checksumGo hashAt i l).length = l.length := by
  intro l
  induction l with
  | nil => intro i; rfl
  | cons c rest ih =>
    intro i
    rw [checksumGo, List.length_cons, List.length_cons, ih (i + 1)]

/-- Checksumming a lowercase hex string yields case-insensitive hex digits. -/
theorem checksumGo_hexCI (hashAt : Nat → Nat) :
    ∀ (l : List Nat) (i : Nat), (∀ c ∈ l, IsLowerHex c) →
      ∀ d ∈ checksumGo hashAt i l, isHexDigitCI d = true := by
  intro l
  induction l with
  | nil => intro i _ d hd; simp [checksumGo] at hd
  | cons c rest ih =>
    intro i h d hd
    have hc : IsLowerHex c := h c (by simp)
    have hrest : ∀ e ∈ rest, IsLowerHex e := fun e he => h e (List.mem_cons_of_mem _ he)
    rw [checksumGo] at hd
    rcases List.mem_cons.1 hd with h₁ | h₂
    · subst h₁
      split
      · exact isHexDigitCI_jsToUpper c hc
      · exact isHexDigitCI_of_isLowerHex c hc
    · exact ih (i + 1) hrest d h₂

/-- Cleaning a claim-valid address gives 40 lowercase hex digits. -/
theorem clean_spec_of_claimValid (a : List Nat) (h : isClaim40HexAddress a = true) :
    (replaceFirst0x (a.map jsToLower)).length = 40
    ∧ ∀ c ∈ replaceFirst0x (a.map jsToLower), IsLowerHex c := by
  rw [isClaim40HexAddress, Bool.or_eq_true] at h
  rcases h with h | h
  · rw [Bool.and_eq_true, decide_eq_true_eq] at h
    obtain ⟨hlen, hall⟩ := h
    rw [List.all_eq_true] at hall
    have hmap : ∀ c ∈ a.map jsToLower, IsLowerHex c := by
      intro c hc
      rcases List.mem_map.1 hc with ⟨d, hd, rfl⟩
      exact isLowerHex_jsToLower d (hall d hd)
    have hne : ∀ c ∈ a.map jsToLower, c ≠ 120 := fun c hc => isLowerHex_ne_x c (hmap c hc)
    rw [replaceFirst0x_eq_self _ hne]
    exact ⟨by rw [List.length_map]; exact hlen, hmap⟩
  · rw [Bool.and_eq_true, Bool.and_eq_true, decide_eq_true_eq] at h
    obtain ⟨⟨hlen, htake⟩, hall⟩ := h
    rcases a with _ | ⟨c₁, _ | ⟨c₂, rest⟩⟩
    · simp at hlen
    · simp at hlen
    · have hrest : rest.length = 40 := by
        simp only [List.length_cons] at hlen
        omega
      have h12 : c₁ = 48 ∧ (c₂ = 120 ∨ c₂ = 88) := by
        rw [Bool.or_eq_true, beq_iff_eq, beq_iff_eq] at htake
        have ht : (c₁ :: c₂ :: rest).take 2 = [c₁, c₂] := rfl
        rw [ht] at htake
        rcases htake with he | he
        · obtain ⟨h1, h2, -⟩ := List.cons_eq_cons.1 he |>.imp id fun hh => List.cons_eq_cons.1 hh
          exact ⟨h1, Or.inl h2⟩
        · obtain ⟨h1, h2, -⟩ := List.cons_eq_cons.1 he |>.imp id fun hh => List.cons_eq_cons.1 hh
          exact ⟨h1, Or.inr h2⟩
      obtain ⟨h48, hx⟩ := h12
      have hdrop : (c₁ :: c₂ :: rest).drop 2 = rest := rfl
      rw [hdrop, List.all_eq_true] at hall
      subst h48
      have hlow2 : jsToLower c₂ = 120 := by
        rcases hx with h120 | h88 <;> subst c₂ <;> decide
      rw [List.map_cons, List.map_cons, hlow2, show jsToLower 48 = 48 from by decide]
      rw [show replaceFirst0x (48 :: 120 :: rest.map jsToLower) = rest.map jsToLower from by
        simp [replaceFirst0x]]
      refine ⟨by rw [List.length_map]; exact hrest, ?_⟩
      intro c hc
      rcases List.mem_map.1 hc with ⟨d, hd, rfl⟩
      exact isLowerHex_jsToLower d (hall d hd)

/-- The checksummed form of a 40-digit lowercase hex string is a fixed point of
`toChecksumAddress`. -/
theorem toChecksumAddress_fixed (hash : List Nat → Nat → Nat) (clean : List Nat)
    (hlen : clean.length = 40) (hhex : ∀ c ∈ clean, IsLowerHex c) :
    toChecksumAddress hash (48 :: 120 :: checksumEncode hash clean)
      = some (48 :: 120 :: checksumEncode hash clean) := by
  have hmap : (48 :: 120 :: checksumEncode hash clean).map jsToLower = 48 :: 120 :: clean := by
    rw [List.map_cons, List.map_cons, show jsToLower 48 = 48 from by decide,
      show jsToLower 120 = 120 from by decide, checksumEncode,
      checksumGo_map_jsToLower (hash clean) clean 0 hhex]
  simp only [toChecksumAddress, hmap]
  rw [show replaceFirst0x (48 :: 120 :: clean) = clean from by simp [replaceFirst0x]]
  rw [if_pos ⟨hlen, List.all_eq_true.2 fun c hc => isHexDigitCI_of_isLowerHex c (hhex c hc)⟩]

/-- Whatever `toChecksumAddress` returns is itself a claim-valid address
(`0x` followed by 40 hex digits). -/
theorem claimValid_of_toChecksum (hash : List Nat → Nat → Nat) (a out : List Nat)
    (h : toChecksumAddress hash a = some out) : isClaim40HexAddress out = true := by
  simp only [toChecksumAddress] at h
  split at h
  case isTrue hg =>
    injection h with hout
    have hlowclean : ∀ c ∈ replaceFirst0x (a.map jsToLower), IsLowerHex c := by
      intro c hc
      refine isLowerHex_of_hexCI_not_upper c ?_ ?_
      · have := List.all_eq_true.1 hg.2 c hc
        exact this
      · rcases List.mem_map.1 (mem_replaceFirst0x _ c hc) with ⟨d, _, rfl⟩
        exact jsToLower_not_upper d
    have hcs40 : (checksumEncode hash (replaceFirst0x (a.map jsToLower))).length = 40 := by
      rw [checksumEncode, checksumGo_length]
      exact hg.1
    rw [isClaim40HexAddress, Bool.or_eq_true]
    right
    rw [Bool.and_eq_true, Bool.and_eq_true, decide_eq_true_eq]
    subst hout
    refine ⟨⟨?_, ?_⟩, ?_⟩
    · simp only [List.length_cons, hcs40]
    · rw [Bool.or_eq_true]
      left
      rfl
    · rw [show (48 :: 120 :: checksumEncode hash (replaceFirst0x (a.map jsToLower))).drop 2
          = checksumEncode hash (replaceFirst0x (a.map jsToLower)) from rfl]
      rw [List.all_eq_true]
      intro c hc
      exact checksumGo_hexCI _ _ 0 hlowclean c hc
  case isFalse => cases h

/-- C10 amended: on every syntactically valid 40-hex-digit address (with or
without `0x` prefix, any casing) `toChecksumAddress` succeeds, is idempotent and
its output passes `isValidChecksumAddress`; `isValidChecksumAddress` is `false` on
every input that is not such an address; but `toChecksumAddress` throws only when
lowercasing and removing the first `0x` occurrence does not leave exactly 40 hex
digits, so some non-address inputs (an interior `0x`) are accepted rather than
rejected. -/
theorem toChecksumAddress_idempotent_valid (hash : List Nat → Nat → Nat) :
    (∀ a, isClaim40HexAddress a = true →
        ∃ out, toChecksumAddress hash a = some out
          ∧ toChecksumAddress hash out = some out
          ∧ isValidChecksumAddress hash out = true)
  ∧ (∀ a, isClaim40HexAddress a = false → isValidChecksumAddress hash a = false) := by
  constructor
  · intro a ha
    obtain ⟨hlen, hhex⟩ := clean_spec_of_claimValid a ha
    have hsome : toChecksumAddress hash a
        = some (48 :: 120 :: checksumEncode hash (replaceFirst0x (a.map jsToLower))) := by
      simp only [toChecksumAddress]
      rw [if_pos ⟨hlen, List.all_eq_true.2 fun c hc => isHexDigitCI_of_isLowerHex c (hhex c hc)⟩]
    refine ⟨_, hsome, toChecksumAddress_fixed hash _ hlen hhex, ?_⟩
    rw [isValidChecksumAddress, toChecksumAddress_fixed hash _ hlen hhex]
    exact beq_self_eq_true _
  · intro a ha
    cases htc : toChecksumAddress hash a with
    | none => rw [isValidChecksumAddress, htc]
    | some out =>
      rw [isValidChecksumAddress, htc]
      have hvout := claimValid_of_toChecksum hash a out htc
      have hne : a ≠ out := by
        intro he
        rw [he, hvout] at ha
        cases ha
      exact beq_eq_false_iff_ne.2 hne

/-- C10 counterexample: `"ff0x" ++ 38 zeros` is not a 40-hex-digit address (with
or without prefix), yet `toChecksumAddress` does not throw on it — `replace`
removed the interior `0x`. -/
theorem toChecksumAddress_accepts_nonaddress_cex :
    isClaim40HexAddress notAnAddressInput = false
  ∧ toChecksumAddress zeroHash notAnAddressInput ≠ none := by
  constructor
  · decide
  · decide

/-- C10 witness: the amended theorem at the all-zero address under `zeroHash`. -/
theorem toChecksumAddress_idempotent_valid_witness :
    ∃ out, toChecksumAddress zeroHash addrW = some out
      ∧ toChecksumAddress zeroHash out = some out
      ∧ isValidChecksumAddress zeroHash out = true :=
  (toChecksumAddress_idempotent_valid zeroHash).1 addrW (by decide)

/-- The scan skips any run of failing entries (404 or otherwise) and returns the
first success. -/
theorem mirrorScan_ok_of_skip {α β : Type} (attempt : α → Except ReqError β) :
    ∀ (pre : List α) (lastErr : Option ReqError) (x : α) (rest : List α) (v : β),
      (∀ q ∈ pre, ∃ e, attempt q = .error e) →
      attempt x = .ok v →
      mirrorScan attempt (pre ++ x :: rest) lastErr = .ok v := by
  intro pre
  induction pre with
  | nil =>
    intro lastErr x rest v _ hx
    simp [mirrorScan, hx]
  | cons q qs ih =>
    intro lastErr x rest v hpre hx
    obtain ⟨e, he⟩ := hpre q (by simp)
    simp only [List.cons_append, mirrorScan, he]
    exact ih _ x rest v (fun r hr => hpre r (List.mem_cons_of_mem _ hr)) hx

/-- When every entry fails, the scan surfaces the error of the last entry (or the
starting `lastErr` if there is no entry). -/
theorem mirrorScan_all_fail {α β : Type} (attempt : α → Except ReqError β)
    (errOf : α → ReqError) :
    ∀ (l : List α) (lastErr : Option ReqError),
      (∀ q ∈ l, attempt q = .error (errOf q)) →
      mirrorScan attempt l lastErr
        = .error (l.getLast?.elim lastErr (fun q => some (errOf q))) := by
  intro l
  induction l with
  | nil => intro lastErr _; rfl
  | cons q qs ih =>
    intro lastErr h
    have hq := h q (by simp)
    simp only [mirrorScan, hq]
    rw [ih (some (errOf q)) (fun r hr => h r (List.mem_cons_of_mem _ hr))]
    congr 1
    cases qs with
    | nil => rfl
    | cons r rs =>
      rw [List.getLast?_cons_cons]
      cases hgl : (r :: rs).getLast? with
      | none =>
        rw [List.getLast?_eq_none_iff] at hgl
        cases hgl
      | some x => rfl

/-- C1: `fetchMetadata` scans `(matchQuality, mirror)` pairs in the fixed order
full (exact) before partial (approximate), each quality over the mirrors in
configured order; any failing pair — 404 or not — is skipped and the scan
continues; the first success is returned with its match type and mirror; if every
pair fails the thrown error carries the last error encountered; and an address
failing the checksum test is rejected up front. -/
theorem fetchMetadata_scan_contract :
    (∀ (baseUrls : List String),
        matchPairs baseUrls
          = baseUrls.map (fun u => (MatchType.fullMatch, u))
            ++ baseUrls.map (fun u => (MatchType.partialM, u)))
  ∧ (∀ (hash : List Nat → Nat → Nat) (addr : List Nat) (baseUrls : List String)
        (resp : MatchType → String → Except ReqError String)
        (pre : List (MatchType × String)) (p : MatchType × String)
        (rest : List (MatchType × String)) (m : String),
        isValidChecksumAddress hash addr = true →
        matchPairs baseUrls = pre ++ p :: rest →
        (∀ q ∈ pre, ∃ e, resp q.1 q.2 = Except.error e) →
        resp p.1 p.2 = Except.ok m →
        fetchMetadata hash addr baseUrls resp = Except.ok (m, p.1, p.2))
  ∧ (∀ (hash : List Nat → Nat → Nat) (addr : List Nat) (baseUrls : List String)
        (resp : MatchType → String → Except ReqError String)
        (errOf : MatchType × String → ReqError),
        isValidChecksumAddress hash addr = true →
        (∀ q ∈ matchPairs baseUrls, resp q.1 q.2 = Except.error (errOf q)) →
        fetchMetadata hash addr baseUrls resp
          = Except.error (FetchErr.exhausted ((matchPairs baseUrls).getLast?.map errOf)))
  ∧ (∀ (hash : List Nat → Nat → Nat) (addr : List Nat) (baseUrls : List String)
        (resp : MatchType → String → Except ReqError String),
        isValidChecksumAddress hash addr = false →
        fetchMetadata hash addr baseUrls resp = Except.error FetchErr.invalidAddress) := by
  refine ⟨?_, ?_, ?_, ?_⟩
  · intro baseUrls
    simp [matchPairs]
  · intro hash addr baseUrls resp pre p rest m hvalid hpairs hpre hp
    rw [fetchMetadata, if_pos (by rw [hvalid]), hpairs]
    rw [mirrorScan_ok_of_skip _ pre none p rest (m, p.1, p.2) ?hpre (by rw [hp])]
    intro q hq
    obtain ⟨e, he⟩ := hpre q hq
    exact ⟨e, by rw [he]⟩
  · intro hash addr baseUrls resp errOf hvalid hfail
    rw [fetchMetadata, if_pos (by rw [hvalid])]
    rw [mirrorScan_all_fail _ errOf (matchPairs baseUrls) none
      (fun q hq => by rw [hfail q hq])]
    cases (matchPairs baseUrls).getLast? <;> rfl
  · intro hash addr baseUrls resp hinvalid
    rw [fetchMetadata, if_neg (by rw [hinvalid]; exact Bool.false_ne_true)]

/-- C1 witness: with mirrors `m1, m2`, full match failing with 404 then 503 and
partial match succeeding at `m1`, the scan returns the partial match from `m1`;
and when every pair fails, the error carries the last pair's 503. -/
theorem fetchMetadata_scan_contract_witness :
    fetchMetadata zeroHash addrW urlsW respW
      = Except.ok ("meta", MatchType.partialM, "m1")
  ∧ fetchMetadata zeroHash addrW urlsW respAllFailW
      = Except.error (FetchErr.exhausted (some err503W)) := by
  constructor
  · refine fetchMetadata_scan_contract.2.1 zeroHash addrW urlsW respW
      [(MatchType.fullMatch, "m1"), (MatchType.fullMatch, "m2")]
      (MatchType.partialM, "m1") [(MatchType.partialM, "m2")] "meta"
      (by decide) rfl ?_ rfl
    intro q hq
    simp only [List.mem_cons, List.not_mem_nil, or_false] at hq
    rcases hq with rfl | rfl
    · exact ⟨err404W, rfl⟩
    · exact ⟨err503W, rfl⟩
  · refine fetchMetadata_scan_contract.2.2.1 zeroHash addrW urlsW respAllFailW errOfW
      (by decide) ?_
    intro q hq
    simp only [matchPairs, urlsW, List.flatMap_cons, List.map_cons, List.map_nil,
      List.flatMap_nil, List.append_nil, List.nil_append, List.cons_append,
      List.mem_cons, List.not_mem_nil, or_false] at hq
    rcases hq with rfl | rfl | rfl | rfl <;> rfl

/-- A successful attempt always accounts for exactly one network request. -/
theorem handleSuccess_calls (isGet : Bool) (now : Nat) (url : String) (cache : Cache)
    (calls : Nat) (resp : HttpResponse) :
    (handleSuccess isGet now url cache calls resp).2.2 = calls + 1 := by
  rw [handleSuccess]
  split
  · rfl
  · split <;> rfl

/-- Unfolding the loop on a successful attempt. -/
theorem requestLoop_ok (net : Nat → Option String → Except ReqError HttpResponse)
    (inm : Option String) (isGet : Bool) (now : Nat) (url : String) (cache : Cache)
    (remaining calls : Nat) (resp : HttpResponse)
    (hnet : net calls inm = .ok resp) :
    requestLoop net inm isGet now url cache remaining calls
      = handleSuccess isGet now url cache calls resp := by
  rw [requestLoop, hnet]

/-- Unfolding the loop on a failure with no retries left. -/
theorem requestLoop_zero_error (net : Nat → Option String → Except ReqError HttpResponse)
    (inm : Option String) (isGet : Bool) (now : Nat) (url : String) (cache : Cache)
    (calls : Nat) (e : ReqError) (hnet : net calls inm = .error e) :
    requestLoop net inm isGet now url cache 0 calls = (.error e, cache, calls + 1) := by
  rw [requestLoop, hnet]

/-- Unfolding the loop on a failure with retries left. -/
theorem requestLoop_step_error (net : Nat → Option String → Except ReqError HttpResponse)
    (inm : Option String) (isGet : Bool) (now : Nat) (url : String) (cache : Cache)
    (r calls : Nat) (e : ReqError) (hnet : net calls inm = .error e) :
    requestLoop net inm isGet now url cache (r + 1) calls
      = if isRetryableError e = true
        then requestLoop net inm isGet now url cache r (calls + 1)
        else (.error e, cache, calls + 1) := by
  rw [requestLoop, hnet]

/-- The attempt loop issues at most `remaining + 1` network requests. -/
theorem requestLoop_calls_le (net : Nat → Option String → Except ReqError HttpResponse)
    (inm : Option String) (isGet : Bool) (now : Nat) (url : String) (cache : Cache) :
    ∀ (remaining calls : Nat),
      (requestLoop net inm isGet now url cache remaining calls).2.2
        ≤ calls + remaining + 1 := by
  intro remaining
  induction remaining with
  | zero =>
    intro calls
    cases hnet : net calls inm with
    | ok resp =>
      rw [requestLoop_ok net inm isGet now url cache 0 calls resp hnet,
        handleSuccess_calls]
    | error e =>
      rw [requestLoop_zero_error net inm isGet now url cache calls e hnet]
  | succ r ih =>
    intro calls
    cases hnet : net calls inm with
    | ok resp =>
      rw [requestLoop_ok net inm isGet now url cache (r + 1) calls resp hnet,
        handleSuccess_calls]
      omega
    | error e =>
      rw [requestLoop_step_error net inm isGet now url cache r calls e hnet]
      split
      · have := ih (calls + 1)
        omega
      · show calls + 1 ≤ calls + (r + 1) + 1
        omega

/-- A streak of `k` retryable failures followed by a failure that is either
non-retryable or out of retries makes the loop stop after exactly `k + 1`
requests, surfacing that last error and leaving the cache untouched. -/
theorem requestLoop_error_streak (net : Nat → Option String → Except ReqError HttpResponse)
    (inm : Option String) (isGet : Bool) (now : Nat) (url : String) (cache : Cache) :
    ∀ (k : Nat) (errOf : Nat → ReqError) (remaining calls : Nat), k ≤ remaining →
      (∀ i < k, net (calls + i) inm = .error (errOf i)
        ∧ isRetryableError (errOf i) = true) →
      net (calls + k) inm = .error (errOf k) →
      (isRetryableError (errOf k) = false ∨ k = remaining) →
      requestLoop net inm isGet now url cache remaining calls
        = (.error (errOf k), cache, calls + k + 1) := by
  intro k
  induction k with
  | zero =>
    intro errOf remaining calls _ _ hk hstop
    rw [show calls + 0 = calls from rfl] at hk
    cases remaining with
    | zero => rw [requestLoop_zero_error net inm isGet now url cache calls _ hk]
    | succ r =>
      rcases hstop with hnr | habs
      · rw [requestLoop_step_error net inm isGet now url cache r calls _ hk,
          if_neg (by rw [hnr]; exact Bool.false_ne_true)]
      · cases habs
  | succ j ih =>
    intro errOf remaining calls hle hstreak hk hstop
    cases remaining with
    | zero => omega
    | succ r =>
      obtain ⟨h0, h0r⟩ := hstreak 0 (Nat.succ_pos j)
      rw [show calls + 0 = calls from rfl] at h0
      rw [requestLoop_step_error net inm isGet now url cache r calls _ h0, if_pos h0r]
      have hres := ih (fun i => errOf (i + 1)) r (calls + 1) (by omega)
        (fun i hi => by
          have hs := hstreak (i + 1) (by omega)
          rwa [show calls + (i + 1) = calls + 1 + i from by omega] at hs)
        (by rw [show calls + 1 + j = calls + (j + 1) from by omega]; exact hk)
        (by rcases hstop with hnr | heq
            · exact Or.inl hnr
            · right; omega)
      rw [hres, show calls + 1 + j + 1 = calls + (j + 1) + 1 from by omega]

/-- `request` issues at most `maxRetries + 1` network requests. -/
theorem request_calls_le (maxRetries : Nat)
    (net : Nat → Option String → Except ReqError HttpResponse) (now : Nat)
    (method url : String) (opts : ReqOptions) (cache : Cache) (calls : Nat) :
    (request maxRetries net now method url opts cache calls).2.2
      ≤ calls + maxRetries + 1 := by
  rw [request]
  exact requestLoop_calls_le net _ _ now url cache maxRetries calls

/-- C2 amended: an error is retried iff it has no HTTP response or its status is
at least 500 or equal to 429; a request issues at most `maxRetries + 1` network
attempts — 4, not 3, under the default configuration `DEFAULT_MAX_RETRIES = 3`; a
non-retryable error propagates to the caller immediately with no further attempts;
and when all attempts fail the last error encountered is thrown. -/
theorem request_retry_policy :
    (∀ (e : ReqError), isRetryableError e = true
        ↔ (e.response = none
            ∨ ∃ r, e.response = some r ∧ (500 ≤ r.status ∨ r.status = 429)))
  ∧ (∀ (maxRetries : Nat) (net : Nat → Option String → Except ReqError HttpResponse)
        (now : Nat) (method url : String) (opts : ReqOptions) (cache : Cache) (calls : Nat),
        (request maxRetries net now method url opts cache calls).2.2
          ≤ calls + maxRetries + 1)
  ∧ (∀ (net : Nat → Option String → Except ReqError HttpResponse)
        (now : Nat) (method url : String) (opts : ReqOptions) (cache : Cache) (calls : Nat),
        (request DEFAULT_MAX_RETRIES net now method url opts cache calls).2.2 ≤ calls + 4)
  ∧ (∀ (maxRetries : Nat) (net : Nat → Option String → Except ReqError HttpResponse)
        (now : Nat) (method url : String) (opts : ReqOptions) (cache : Cache)
        (calls : Nat) (errOf : Nat → ReqError) (k : Nat),
        k ≤ maxRetries →
        (∀ i < k, ∀ hdr, net (calls + i) hdr = .error (errOf i)
          ∧ isRetryableError (errOf i) = true) →
        (∀ hdr, net (calls + k) hdr = .error (errOf k)) →
        isRetryableError (errOf k) = false →
        request maxRetries net now method url opts cache calls
          = (.error (errOf k), cache, calls + k + 1))
  ∧ (∀ (maxRetries : Nat) (net : Nat → Option String → Except ReqError HttpResponse)
        (now : Nat) (method url : String) (opts : ReqOptions) (cache : Cache)
        (calls : Nat) (errOf : Nat → ReqError),
        (∀ i < maxRetries, ∀ hdr, net (calls + i) hdr = .error (errOf i)
          ∧ isRetryableError (errOf i) = true) →
        (∀ hdr, net (calls + maxRetries) hdr = .error (errOf maxRetries)) →
        request maxRetries net now method url opts cache calls
          = (.error (errOf maxRetries), cache, calls + maxRetries + 1)) := by
  refine ⟨?_, ?_, ?_, ?_, ?_⟩
  · intro e
    obtain ⟨ro⟩ := e
    cases ro with
    | none => simp [isRetryableError]
    | some r =>
      rw [isRetryableError]
      simp only [decide_eq_true_eq, Option.some.injEq, reduceCtorEq, false_or]
      constructor
      · intro h
        exact ⟨r, rfl, h⟩
      · rintro ⟨r', hr', h⟩
        subst hr'
        exact h
  · intro maxRetries net now method url opts cache calls
    exact request_calls_le maxRetries net now method url opts cache calls
  · intro net now method url opts cache calls
    have h := request_calls_le DEFAULT_MAX_RETRIES net now method url opts cache calls
    rw [DEFAULT_MAX_RETRIES] at h ⊢
    omega
  · intro maxRetries net now method url opts cache calls errOf k hle hstreak hk hnr
    rw [request]
    exact requestLoop_error_streak net _ _ now url cache k errOf maxRetries calls hle
      (fun i hi => hstreak i hi _) (hk _) (Or.inl hnr)
  · intro maxRetries net now method url opts cache calls errOf hstreak hk
    rw [request]
    exact requestLoop_error_streak net _ _ now url cache maxRetries errOf maxRetries calls
      le_rfl (fun i hi => hstreak i hi _) (hk _) (Or.inr rfl)

/-- C2 counterexample: under the default configuration, a network that fails on
every attempt receives 4 underlying attempts, not at most 3 — the loop runs
`attempt = 0 .. maxRetries` inclusive. -/
theorem request_four_attempts_cex :
    (request DEFAULT_MAX_RETRIES netFailW 0 "GET" "u" {} emptyCache 0).2.2 = 4
  ∧ (request DEFAULT_MAX_RETRIES netFailW 0 "GET" "u" {} emptyCache 0).1
      = Except.error netErrW
  ∧ ¬(4 ≤ 3) := by
  refine ⟨rfl, rfl, by omega⟩

/-- C2 witness: the amended theorem at a concrete network — a 503 is retryable,
at most 4 requests under the default configuration, and a 400 on the second
attempt aborts immediately with exactly 2 attempts, surfacing the 400. -/
theorem request_retry_policy_witness :
    (isRetryableError err503W = true
      ↔ (err503W.response = none
          ∨ ∃ r, err503W.response = some r ∧ (500 ≤ r.status ∨ r.status = 429)))
  ∧ (request DEFAULT_MAX_RETRIES netFailW 0 "GET" "u" {} emptyCache 0).2.2 ≤ 0 + 4
  ∧ request 3 netMixW 0 "GET" "u" {} emptyCache 0
      = (Except.error err400W, emptyCache, 2) := by
  refine ⟨request_retry_policy.1 err503W,
    request_retry_policy.2.2.1 netFailW 0 "GET" "u" {} emptyCache 0, ?_⟩
  have h := request_retry_policy.2.2.2.1 3 netMixW 0 "GET" "u" {} emptyCache 0 errMixW 1
    (by omega)
    (by
      intro i hi hdr
      have hi0 : i = 0 := by omega
      subst hi0
      exact ⟨rfl, rfl⟩)
    (fun hdr => rfl)
    rfl
  exact h

/-- `request` on a plain GET (default options) computes its conditional header
from the cache and runs the attempt loop. -/
theorem request_get_default (maxRetries : Nat)
    (net : Nat → Option String → Except ReqError HttpResponse) (now : Nat)
    (url : String) (cache : Cache) (calls : Nat) :
    request maxRetries net now "GET" url {} cache calls
      = requestLoop net
          (match loadFromCache cache now url with
           | some c => if c.etag.isSome && true then c.etag else none
           | none => none)
          true now url cache maxRetries calls := by
  have hg : isGetMethod "GET" = true := by decide
  rw [request, hg]
  rfl

/-- C7 amended: two sequential GETs to the same URL within the validity window,
with an ETag present and the server answering not-modified, issue exactly one
underlying network request EACH — two in total, the second conditional — and the
second GET returns the cached payload unchanged. -/
theorem conditional_get_two_requests :
    ∀ (maxRetries : Nat) (net : Nat → Option String → Except ReqError HttpResponse)
      (url : String) (now₁ now₂ : Nat) (cache₀ : Cache) (e : String)
      (resp1 resp2 : HttpResponse),
      cache₀ url = none →
      ¬(now₂ - now₁ > CACHE_VALIDITY_MS) →
      (∀ hdr, net 0 hdr = .ok resp1) →
      resp1.status = 200 →
      resp1.headers.etag = some e →
      net 1 (some e) = .ok resp2 →
      resp2.status = 304 →
      twoSequentialGets maxRetries net url now₁ now₂ cache₀
        = (Except.ok resp1.data, Except.ok resp1.data, 2) := by
  intro maxRetries net url now₁ now₂ cache₀ e resp1 resp2 h₀ hwin h1 hs1 he1 h2 hs2
  have hload1 : loadFromCache cache₀ now₁ url = none := by
    rw [loadFromCache, h₀]
  have hreq1 : request maxRetries net now₁ "GET" url {} cache₀ 0
      = (Except.ok resp1.data, saveToCache cache₀ now₁ url resp1, 1) := by
    rw [request_get_default, hload1]
    rw [requestLoop_ok net none true now₁ url cache₀ maxRetries 0 resp1 (h1 none)]
    rw [handleSuccess, hs1]
    rw [if_neg (by omega)]
    simp
  have hcacheget : saveToCache cache₀ now₁ url resp1 url
      = some { url := url, timestamp := now₁, etag := resp1.headers.etag,
               lastModified := resp1.headers.lastModified,
               contentType := resp1.headers.contentType,
               contentLength := resp1.headers.contentLength, data := resp1.data } := by
    rw [saveToCache]
    exact if_pos rfl
  have hload2 : loadFromCache (saveToCache cache₀ now₁ url resp1) now₂ url
      = some { url := url, timestamp := now₁, etag := resp1.headers.etag,
               lastModified := resp1.headers.lastModified,
               contentType := resp1.headers.contentType,
               contentLength := resp1.headers.contentLength, data := resp1.data } := by
    rw [loadFromCache]
    simp only [hcacheget]
    simp [hwin]
  have hreq2 : request maxRetries net now₂ "GET" url {}
      (saveToCache cache₀ now₁ url resp1) 1
      = (Except.ok resp1.data, saveToCache cache₀ now₁ url resp1, 2) := by
    rw [request_get_default]
    have hinm : (match loadFromCache (saveToCache cache₀ now₁ url resp1) now₂ url with
        | some c => if c.etag.isSome && true then c.etag else none
        | none => none) = some e := by
      simp only [hload2]
      simp [he1]
    rw [hinm]
    rw [requestLoop_ok net (some e) true now₂ url (saveToCache cache₀ now₁ url resp1)
      maxRetries 1 resp2 h2]
    rw [handleSuccess, hs2, if_pos rfl, hload2]
  rw [twoSequentialGets, hreq1]
  rw [show ((Except.ok resp1.data : Except ReqError String),
      saveToCache cache₀ now₁ url resp1, 1).2.1 = saveToCache cache₀ now₁ url resp1 from rfl]
  rw [show ((Except.ok resp1.data : Except ReqError String),
      saveToCache cache₀ now₁ url resp1, 1).2.2 = 1 from rfl]
  rw [hreq2]

/-- C7 counterexample: in the concrete 200-then-304 scenario the two GETs issue
two underlying network requests, not one in total — the cache never short-circuits
the network, it only makes the second request conditional. -/
theorem cache_two_network_requests_cex :
    twoSequentialGets DEFAULT_MAX_RETRIES netCacheW "u" 0 3600000 emptyCache
      = (Except.ok "D", Except.ok "D", 2)
  ∧ (2 : Nat) ≠ 1 := by
  exact ⟨rfl, by omega⟩

/-- C7 witness: the amended theorem at the concrete 200-then-304 network. -/
theorem conditional_get_two_requests_witness :
    twoSequentialGets 3 netCacheW "u" 0 3600000 emptyCache
      = (Except.ok resp200W.data, Except.ok resp200W.data, 2) :=
  conditional_get_two_requests 3 netCacheW "u" 0 3600000 emptyCache "E" resp200W resp304W
    rfl (by decide) (fun hdr => rfl) rfl rfl rfl rfl

/-- Characterization of the missing-files loop: it appends the expected files
whose current hash reads falsy, invalidates iff one exists, and touches nothing
else. -/
theorem missingStep_fold (current : List (String × String)) :
    ∀ (expected : List (String × String)) (r : VerifyResult),
      (expected.foldl (missingStep current) r).missingFiles
        = r.missingFiles ++ (expected.filter
            (fun ef => !jsTruthyStr (List.lookup ef.1 current))).map Prod.fst
    ∧ (expected.foldl (missingStep current) r).extraFiles = r.extraFiles
    ∧ (expected.foldl (missingStep current) r).mismatchedFiles = r.mismatchedFiles
    ∧ (expected.foldl (missingStep current) r).valid
        = (r.valid && expected.all (fun ef => jsTruthyStr (List.lookup ef.1 current))) := by
  intro expected
  induction expected with
  | nil => intro r; simp
  | cons ef rest ih =>
    intro r
    cases htr : jsTruthyStr (List.lookup ef.1 current) with
    | true =>
      simp only [List.foldl_cons, missingStep, htr, if_pos, List.filter_cons, List.all_cons,
        Bool.not_true, Bool.true_and, ih]
      simp [htr]
    | false =>
      simp only [List.foldl_cons, missingStep, htr, List.filter_cons, List.all_cons, ih]
      simp [htr, Bool.and_assoc]

/-- Characterization of the extra/mismatch loop: it appends the mismatch entries
given by `mismatchHit`, invalidates iff one exists, and leaves `missingFiles`
alone. -/
theorem checkStep_fold (expected : List (String × String)) :
    ∀ (current : List (String × String)) (r : VerifyResult),
      (current.foldl (checkStep expected) r).missingFiles = r.missingFiles
    ∧ (current.foldl (checkStep expected) r).mismatchedFiles
        = r.mismatchedFiles ++ current.filterMap (mismatchHit expected)
    ∧ (current.foldl (checkStep expected) r).valid
        = (r.valid && current.all (fun cf => (mismatchHit expected cf).isNone)) := by
  intro current
  induction current with
  | nil => intro r; simp
  | cons cf rest ih =>
    intro r
    rcases hv : List.lookup cf.1 expected with _ | v
    · simp only [List.foldl_cons, checkStep, hv, List.filterMap_cons, mismatchHit, ih,
        List.all_cons]
      simp
    · by_cases hve : v = ""
      · subst hve
        simp only [List.foldl_cons, checkStep, hv, List.filterMap_cons, mismatchHit, ih,
          List.all_cons]
        simp
      · by_cases hneq : v = cf.2
        · subst hneq
          simp only [List.foldl_cons, checkStep, hv, List.filterMap_cons, mismatchHit, ih,
            List.all_cons]
          simp [hve]
        · simp only [List.foldl_cons, checkStep, hv, List.filterMap_cons, mismatchHit, ih,
            List.all_cons]
          simp [hve, hneq, Bool.and_assoc]

/-- In a map with distinct keys, looking up the key of an entry gives its value. -/
theorem lookup_self (l : List (String × String)) (hnd : (l.map Prod.fst).Nodup) :
    ∀ p ∈ l, List.lookup p.1 l = some p.2 := by
  induction l with
  | nil => intro p hp; cases hp
  | cons q rest ih =>
    obtain ⟨qk, qv⟩ := q
    intro p hp
    rw [List.map_cons] at hnd
    rcases List.mem_cons.1 hp with rfl | hp'
    · simp [List.lookup]
    · have hq : (p.1 == qk) = false := by
        rw [beq_eq_false_iff_ne]
        intro he
        have hmem : p.1 ∈ rest.map Prod.fst := List.mem_map_of_mem Prod.fst hp'
        rw [he] at hmem
        exact (List.nodup_cons.1 hnd).1 hmem
      simp only [List.lookup, hq]
      exact ih (List.nodup_cons.1 hnd).2 p hp'

/-- Checksumming does not change the key set. -/
theorem keys_generateChecksums (h : String → String) (dir : List (String × String)) :
    (generateChecksums h dir).map Prod.fst = dir.map Prod.fst := by
  rw [generateChecksums, List.map_map]
  rfl

/-- The verification result is valid iff no file is missing and none mismatches. -/
theorem verifyChecksums_valid_iff (h : String → String) (dir : List (String × String))
    (expected : List (String × String)) :
    (verifyChecksums h dir expected).valid = true
      ↔ ((verifyChecksums h dir expected).missingFiles = []
          ∧ (verifyChecksums h dir expected).mismatchedFiles = []) := by
  rw [verifyChecksums]
  obtain ⟨hm1, he1, hmm1, hv1⟩ := missingStep_fold (generateChecksums h dir) expected
    { valid := true, missingFiles := [], extraFiles := [], mismatchedFiles := [] }
  obtain ⟨hm2, hmm2, hv2⟩ := checkStep_fold expected (generateChecksums h dir)
    (expected.foldl (missingStep (generateChecksums h dir))
      { valid := true, missingFiles := [], extraFiles := [], mismatchedFiles := [] })
  rw [hm2, hmm2, hv2, hv1, hm1, hmm1]
  simp only [Bool.true_and, List.nil_append, Bool.and_eq_true, List.all_eq_true,
    List.map_eq_nil_iff, List.filter_eq_nil_iff, List.filterMap_eq_nil_iff,
    Option.isNone_iff_eq_none]
  constructor
  · rintro ⟨h1, h2⟩
    refine ⟨fun a ha => ?_, h2⟩
    rw [h1 a ha]
    simp
  · rintro ⟨h1, h2⟩
    refine ⟨fun a ha => ?_, h2⟩
    have hna := h1 a ha
    cases htr : jsTruthyStr (List.lookup a.1 (generateChecksums h dir)) with
    | true => rfl
    | false => exact absurd (by rw [htr]; rfl) hna

/-- A directory entry's hash is in the generated manifest. -/
theorem mem_generateChecksums (h : String → String) (dir : List (String × String))
    (f c : String) (hm : (f, c) ∈ dir) : (f, h c) ∈ generateChecksums h dir :=
  List.mem_map_of_mem (fun q => (q.1, h q.2)) hm

/-- C6: verifying a directory against its own freshly generated manifest reports
nothing missing, nothing mismatched and `valid = true`; mutating the content of
exactly one file (to a different, non-colliding hash) yields exactly that file in
`mismatchedFiles`, carrying both the expected and the actual hash, and still
nothing missing; and in general the result is valid iff `missingFiles` and
`mismatchedFiles` are both empty — `extraFiles` never invalidates. -/
theorem verifyChecksums_round_trip :
    (∀ (h : String → String) (dir : List (String × String)),
        (dir.map Prod.fst).Nodup → (∀ f ∈ dir, h f.2 ≠ "") →
        (verifyChecksums h dir (generateChecksums h dir)).missingFiles = []
      ∧ (verifyChecksums h dir (generateChecksums h dir)).mismatchedFiles = []
      ∧ (verifyChecksums h dir (generateChecksums h dir)).valid = true)
  ∧ (∀ (h : String → String) (pre post : List (String × String)) (p c c' : String),
        ((pre ++ (p, c) :: post).map Prod.fst).Nodup →
        (∀ f ∈ pre ++ (p, c) :: post, h f.2 ≠ "") →
        h c' ≠ "" → h c' ≠ h c →
        (verifyChecksums h (pre ++ (p, c') :: post)
            (generateChecksums h (pre ++ (p, c) :: post))).mismatchedFiles
          = [{ file := p, expected := h c, actual := h c' }]
      ∧ (verifyChecksums h (pre ++ (p, c') :: post)
            (generateChecksums h (pre ++ (p, c) :: post))).missingFiles = [])
  ∧ (∀ (h : String → String) (dir expected : List (String × String)),
        (verifyChecksums h dir expected).valid = true
          ↔ ((verifyChecksums h dir expected).missingFiles = []
              ∧ (verifyChecksums h dir expected).mismatchedFiles = [])) := by
  refine ⟨?_, ?_, fun h dir expected => verifyChecksums_valid_iff h dir expected⟩
  · intro h dir hnd hne
    have hndC : ((generateChecksums h dir).map Prod.fst).Nodup := by
      rw [keys_generateChecksums]
      exact hnd
    have htruthy : ∀ cf ∈ generateChecksums h dir,
        jsTruthyStr (List.lookup cf.1 (generateChecksums h dir)) = true := by
      intro cf hcf
      rw [lookup_self _ hndC cf hcf, jsTruthyStr]
      rcases List.mem_map.1 hcf with ⟨q, hq, rfl⟩
      simp [hne q hq]
    have hnohit : ∀ cf ∈ generateChecksums h dir,
        mismatchHit (generateChecksums h dir) cf = none := by
      intro cf hcf
      rw [mismatchHit, lookup_self _ hndC cf hcf]
      rcases List.mem_map.1 hcf with ⟨q, hq, rfl⟩
      simp [hne q hq]
    have hmiss : (verifyChecksums h dir (generateChecksums h dir)).missingFiles = [] := by
      rw [verifyChecksums,
        (checkStep_fold (generateChecksums h dir) (generateChecksums h dir) _).1,
        (missingStep_fold (generateChecksums h dir) (generateChecksums h dir) _).1]
      simp only [List.nil_append, List.map_eq_nil_iff, List.filter_eq_nil_iff]
      intro a ha
      rw [htruthy a ha]
      simp
    have hmm : (verifyChecksums h dir (generateChecksums h dir)).mismatchedFiles = [] := by
      rw [verifyChecksums,
        (checkStep_fold (generateChecksums h dir) (generateChecksums h dir) _).2.1,
        (missingStep_fold (generateChecksums h dir) (generateChecksums h dir) _).2.2.1]
      simp only [List.nil_append, List.filterMap_eq_nil_iff]
      exact hnohit
    exact ⟨hmiss, hmm, (verifyChecksums_valid_iff h dir _).2 ⟨hmiss, hmm⟩⟩
  · intro h pre post p c c' hnd hne hne' hcol
    have hkeys : ((pre ++ (p, c') :: post).map Prod.fst)
        = ((pre ++ (p, c) :: post).map Prod.fst) := by
      simp [List.map_append]
    have hnd' : ((pre ++ (p, c') :: post).map Prod.fst).Nodup := by
      rw [hkeys]
      exact hnd
    have hndE : ((generateChecksums h (pre ++ (p, c) :: post)).map Prod.fst).Nodup := by
      rw [keys_generateChecksums]
      exact hnd
    have hndC : ((generateChecksums h (pre ++ (p, c') :: post)).map Prod.fst).Nodup := by
      rw [keys_generateChecksums]
      exact hnd'
    -- lookups into the expected manifest
    have hlookE : ∀ f d, (f, d) ∈ pre ++ (p, c) :: post →
        List.lookup f (generateChecksums h (pre ++ (p, c) :: post)) = some (h d) := by
      intro f d hm
      exact lookup_self _ hndE (f, h d) (mem_generateChecksums h _ f d hm)
    have hlookC : ∀ f d, (f, d) ∈ pre ++ (p, c') :: post →
        List.lookup f (generateChecksums h (pre ++ (p, c') :: post)) = some (h d) := by
      intro f d hm
      exact lookup_self _ hndC (f, h d) (mem_generateChecksums h _ f d hm)
    have hhit : ∀ cf ∈ generateChecksums h (pre ++ (p, c') :: post),
        mismatchHit (generateChecksums h (pre ++ (p, c) :: post)) cf
          = (if cf.1 = p then some { file := p, expected := h c, actual := h c' }
             else none) := by
      intro cf hcf
      rcases List.mem_map.1 hcf with ⟨q, hq, rfl⟩
      rcases List.mem_append.1 hq with hqpre | hqmid
      · -- q in pre: its key differs from p by Nodup
        have hqp : q.1 ≠ p := by
          intro he
          rw [List.map_append, List.map_cons] at hnd
          have hm1 : q.1 ∈ pre.map Prod.fst := List.mem_map_of_mem Prod.fst hqpre
          have hm2 : q.1 ∈ p :: post.map Prod.fst := by
            rw [he]
            exact List.mem_cons_self _ _
          exact (List.nodup_append.1 hnd).2.2 hm1 hm2
        have hqdir : (q.1, q.2) ∈ pre ++ (p, c) :: post := List.mem_append_left _ hqpre
        rw [mismatchHit]
        rw [show ((q.1, h q.2) : String × String).1 = q.1 from rfl]
        rw [hlookE q.1 q.2 hqdir]
        simp [hne (q.1, q.2) hqdir, hqp]
      · rcases List.mem_cons.1 hqmid with rfl | hqpost
        · -- q is the mutated file
          rw [mismatchHit]
          rw [show (((p, c') : String × String).1, h ((p, c') : String × String).2)
              = ((p, h c') : String × String) from rfl]
          rw [show ((p, h c') : String × String).1 = p from rfl]
          rw [hlookE p c (by simp)]
          have hcne : h c ≠ "" := hne (p, c) (by simp)
          have hcc : h c ≠ h c' := fun he => hcol he.symm
          simp [hcne, hcc]
        · have hqp : q.1 ≠ p := by
            intro he
            rw [List.map_append, List.map_cons] at hnd
            have h2 := List.nodup_cons.1 (List.nodup_append.1 hnd).2.1
            have hmem : q.1 ∈ post.map Prod.fst := List.mem_map_of_mem Prod.fst hqpost
            rw [he] at hmem
            exact h2.1 hmem
          have hqdir : (q.1, q.2) ∈ pre ++ (p, c) :: post :=
            List.mem_append_right _ (List.mem_cons_of_mem _ hqpost)
          rw [mismatchHit]
          rw [show ((q.1, h q.2) : String × String).1 = q.1 from rfl]
          rw [hlookE q.1 q.2 hqdir]
          simp [hne (q.1, q.2) hqdir, hqp]
    have hmm : (verifyChecksums h (pre ++ (p, c') :: post)
        (generateChecksums h (pre ++ (p, c) :: post))).mismatchedFiles
        = [{ file := p, expected := h c, actual := h c' }] := by
      rw [verifyChecksums, (checkStep_fold _ _ _).2.1, (missingStep_fold _ _ _).2.2.1]
      rw [List.nil_append]
      rw [show generateChecksums h (pre ++ (p, c') :: post)
          = generateChecksums h pre ++ ((p, h c') : String × String)
              :: generateChecksums h post from by simp [generateChecksums]]
      rw [List.filterMap_append, List.filterMap_cons]
      have hA : (generateChecksums h pre).filterMap
          (mismatchHit (generateChecksums h (pre ++ (p, c) :: post))) = [] := by
        rw [List.filterMap_eq_nil_iff]
        intro cf hcf
        have hcf' : cf ∈ generateChecksums h (pre ++ (p, c') :: post) := by
          rw [show generateChecksums h (pre ++ (p, c') :: post)
            = generateChecksums h pre ++ ((p, h c') : String × String)
                :: generateChecksums h post from by simp [generateChecksums]]
          exact List.mem_append_left _ hcf
        rw [hhit cf hcf']
        rcases List.mem_map.1 hcf with ⟨q, hq, rfl⟩
        have hqp : q.1 ≠ p := by
          intro he
          rw [List.map_append, List.map_cons] at hnd
          have hm1 : q.1 ∈ pre.map Prod.fst := List.mem_map_of_mem Prod.fst hq
          have hm2 : q.1 ∈ p :: post.map Prod.fst := by
            rw [he]
            exact List.mem_cons_self _ _
          exact (List.nodup_append.1 hnd).2.2 hm1 hm2
        simp [hqp]
      have hB : (generateChecksums h post).filterMap
          (mismatchHit (generateChecksums h (pre ++ (p, c) :: post))) = [] := by
        rw [List.filterMap_eq_nil_iff]
        intro cf hcf
        have hcf' : cf ∈ generateChecksums h (pre ++ (p, c') :: post) := by
          rw [show generateChecksums h (pre ++ (p, c') :: post)
            = generateChecksums h pre ++ ((p, h c') : String × String)
                :: generateChecksums h post from by simp [generateChecksums]]
          exact List.mem_append_right _ (List.mem_cons_of_mem _ hcf)
        rw [hhit cf hcf']
        rcases List.mem_map.1 hcf with ⟨q, hq, rfl⟩
        have hqp : q.1 ≠ p := by
          intro he
          rw [List.map_append, List.map_cons] at hnd
          have h2 := List.nodup_cons.1 (List.nodup_append.1 hnd).2.1
          have hmem : q.1 ∈ post.map Prod.fst := List.mem_map_of_mem Prod.fst hq
          rw [he] at hmem
          exact h2.1 hmem
        simp [hqp]
      have hx : mismatchHit (generateChecksums h (pre ++ (p, c) :: post))
          ((p, h c') : String × String)
          = some { file := p, expected := h c, actual := h c' } := by
        have hmemx : ((p, h c') : String × String)
            ∈ generateChecksums h (pre ++ (p, c') :: post) := by
          rw [show generateChecksums h (pre ++ (p, c') :: post)
            = generateChecksums h pre ++ ((p, h c') : String × String)
                :: generateChecksums h post from by simp [generateChecksums]]
          exact List.mem_append_right _ (List.mem_cons_self _ _)
        rw [hhit _ hmemx]
        simp
      rw [hA, hB, hx]
      rfl
    have hmiss : (verifyChecksums h (pre ++ (p, c') :: post)
        (generateChecksums h (pre ++ (p, c) :: post))).missingFiles = [] := by
      rw [verifyChecksums, (checkStep_fold _ _ _).1, (missingStep_fold _ _ _).1]
      simp only [List.nil_append, List.map_eq_nil_iff, List.filter_eq_nil_iff]
      intro ef hef
      rcases List.mem_map.1 hef with ⟨q, hq, rfl⟩
      rcases List.mem_append.1 hq with hqpre | hqmid
      · rw [show ((q.1, h q.2) : String × String).1 = q.1 from rfl,
          hlookC q.1 q.2 (List.mem_append_left _ hqpre)]
        simp [jsTruthyStr, hne (q.1, q.2) (List.mem_append_left _ hqpre)]
      · rcases List.mem_cons.1 hqmid with rfl | hqpost
        · rw [show (((p, c) : String × String).1, h ((p, c) : String × String).2).1
              = p from rfl]
          rw [hlookC p c' (by simp)]
          simp [jsTruthyStr, hne']
        · rw [show ((q.1, h q.2) : String × String).1 = q.1 from rfl,
            hlookC q.1 q.2 (List.mem_append_right _ (List.mem_cons_of_mem _ hqpost))]
          simp [jsTruthyStr, hne (q.1, q.2)
            (List.mem_append_right _ (List.mem_cons_of_mem _ hqpost))]
    exact ⟨hmm, hmiss⟩

/-- C6 witness: the theorem at the concrete directory `dirW` with hash `hashW` —
the round trip is valid, and mutating `b.txt` reports exactly that file with the
expected and actual hashes. -/
theorem verifyChecksums_round_trip_witness :
    (verifyChecksums hashW dirW (generateChecksums hashW dirW)).valid = true
  ∧ (verifyChecksums hashW dirMutW (generateChecksums hashW dirW)).mismatchedFiles
      = [{ file := "b.txt", expected := hashW "y", actual := hashW "z" }]
  ∧ (verifyChecksums hashW dirMutW (generateChecksums hashW dirW)).missingFiles = [] := by
  have hnd1 : (dirW.map Prod.fst).Nodup := by decide
  have hne1 : ∀ f ∈ dirW, hashW f.2 ≠ "" := by decide
  have hnd2 : (([("a.txt", "x")] ++ ("b.txt", "y") :: ([] : List (String × String))).map
      Prod.fst).Nodup := by decide
  have hne2 : ∀ f ∈ [("a.txt", "x")] ++ ("b.txt", "y") :: ([] : List (String × String)),
      hashW f.2 ≠ "" := by decide
  have hz1 : hashW "z" ≠ "" := by decide
  have hz2 : hashW "z" ≠ hashW "y" := by decide
  obtain ⟨c1, c2, -⟩ := verifyChecksums_round_trip
  have h1 := c1 hashW dirW hnd1 hne1
  have h2 := c2 hashW [("a.txt", "x")] [] "b.txt" "y" "z" hnd2 hne2 hz1 hz2
  exact ⟨h1.2.2, h2.1, h2.2⟩
